import Mathlib

/-!
Verification of the request-integrity layer of the exhibition-backend HTTP API
gateway, as a shallow embedding of its TypeScript source.

The embedding translates:
  - src/middleware/csrf.ts            (double-submit CSRF verification)
  - src/services/contractVerifier.ts  (on-chain ownership verifier)
  - src/models/ProjectMetadata.ts     (metadata upsert with owner stamping)
  - src/routes/projects.ts            (the privileged metadata mutation route)
  - src/config/env.ts                 (chain configuration validation)
  - the unnamed duplicates of csrf.ts and projects.ts kept in the repository

JavaScript strings are Lean `String`s; a value that may be `undefined`/`null`
is an `Option`; JavaScript truthiness of a string is non-emptiness; code that
can throw is embedded in `Except` with the enclosing try/catch made explicit.
External collaborators (ethers.isAddress, the URL validators from
utils/sanitize.ts, the contract read itself) enter as explicit function or
outcome parameters, so every theorem quantifies over their behaviour.
-/

namespace ExhibitionBackend

/-! ## JavaScript string primitives -/

/-- Truthiness of a JavaScript string: non-empty. -/
def truthyS (s : String) : Bool := s != ""

/-- Truthiness of a possibly-undefined JavaScript string (`!x` is true on
`undefined`, `null` and the empty string). -/
def truthyO : Option String → Bool
  | none => false
  | some s => truthyS s

/-- Value of a possibly-undefined string where the source has already
established truthiness. -/
def oget (o : Option String) : String := o.getD ""

/-- JavaScript `String.prototype.toLowerCase()` on the ASCII strings this
layer compares (hex addresses and header tokens). -/
def jsToLowerCase (s : String) : String := ⟨s.data.map Char.toLower⟩

/-- Whitespace accepted by the `StringToBigInt` conversion. -/
def isJsSpace (c : Char) : Bool :=
  c = ' ' || c = '\t' || c = '\n' || c = '\r' || c = '\x0b' || c = '\x0c'

/-- Digit value of a character in the given base (decimal digits, then the
two hexadecimal letter ranges by code point), none when out of range. -/
def digitInBase (base : Nat) (c : Char) : Option Nat :=
  let n := c.toNat
  let v : Option Nat :=
    if 48 ≤ n ∧ n ≤ 57 then some (n - 48)
    else if 97 ≤ n ∧ n ≤ 102 then some (n - 87)
    else if 65 ≤ n ∧ n ≤ 70 then some (n - 55)
    else none
  match v with
  | some d => if d < base then some d else none
  | none => none

def decDigit? (c : Char) : Option Nat := digitInBase 10 c

def hexDigit? (c : Char) : Option Nat := digitInBase 16 c

def octDigit? (c : Char) : Option Nat := digitInBase 8 c

def binDigit? (c : Char) : Option Nat := digitInBase 2 c

/-- Accumulate a digit string in the given base; `none` on any non-digit. -/
def parseDigits (dig : Char → Option Nat) (base : Nat) (cs : List Char) : Option Nat :=
  cs.foldl
    (fun acc c =>
      match acc, dig c with
      | some v, some d => some (v * base + d)
      | _, _ => none)
    (some 0)

/-- Decimal branch of `StringToBigInt`: optional sign, then non-empty digits. -/
def jsBigIntDecimal : List Char → Option Int
  | [] => none
  | '+' :: rest =>
      if rest.isEmpty then none else (parseDigits decDigit? 10 rest).map Int.ofNat
  | '-' :: rest =>
      if rest.isEmpty then none else (parseDigits decDigit? 10 rest).map (fun n => -(Int.ofNat n))
  | cs => (parseDigits decDigit? 10 cs).map Int.ofNat

/-- JavaScript `BigInt(string)`: trimmed empty string is 0; 0x/0o/0b literals;
otherwise a signed decimal literal; `none` models the thrown SyntaxError. -/
def jsBigIntOfString (s : String) : Option Int :=
  let t := ((s.toList.dropWhile isJsSpace).reverse.dropWhile isJsSpace).reverse
  match t with
  | [] => some 0
  | '0' :: c :: rest =>
      if c = 'x' || c = 'X' then
        if rest.isEmpty then none else (parseDigits hexDigit? 16 rest).map Int.ofNat
      else if c = 'o' || c = 'O' then
        if rest.isEmpty then none else (parseDigits octDigit? 8 rest).map Int.ofNat
      else if c = 'b' || c = 'B' then
        if rest.isEmpty then none else (parseDigits binDigit? 2 rest).map Int.ofNat
      else jsBigIntDecimal ('0' :: c :: rest)
  | cs => jsBigIntDecimal cs

/-! ## CSRF middleware (src/middleware/csrf.ts, lines 50-83) -/

/-- Verdict of the CSRF middleware: call `next()`, or answer 403 with
`error: 'CSRF token missing'`, or 403 with `error: 'CSRF token mismatch'`. -/
inductive CsrfVerdict where
  | proceed
  | missing403
  | mismatch403
deriving DecidableEq, Repr

namespace Csrf

/-- Safe methods skipped by `verifyCsrfToken` (csrf.ts line 56). -/
def safeMethods : List String := ["GET", "HEAD", "OPTIONS"]

/-- Translation of `verifyCsrfToken` from src/middleware/csrf.ts: skip safe
methods; 403 missing when either the `csrf_token` cookie or the
`x-csrf-token` header is absent or empty (JavaScript falsy); 403 mismatch
when both are non-empty but not exactly string-equal. -/
def verifyCsrfToken (method : String) (cookieToken headerToken : Option String) : CsrfVerdict :=
  if safeMethods.contains method then .proceed
  else if !truthyO cookieToken || !truthyO headerToken then .missing403
  else if oget cookieToken != oget headerToken then .mismatch403
  else .proceed

end Csrf

namespace CsrfPart006

/-- Translation of `verifyCsrfToken` from the unnamed duplicate of the CSRF
middleware (src/unnamed/part_006, lines 45-70): same cookie and header names,
same skip list, same two 403 outcomes. -/
def verifyCsrfToken (method : String) (cookieToken headerToken : Option String) : CsrfVerdict :=
  if Csrf.safeMethods.contains method then .proceed
  else if !truthyO cookieToken || !truthyO headerToken then .missing403
  else if oget cookieToken != oget headerToken then .mismatch403
  else .proceed

end CsrfPart006

/-! ## Chain ownership verifier (src/services/contractVerifier.ts) -/

/-- Chain-related configuration: `config.chain.rpcUrl` (null when RPC_URL is
unset; both RPC_URL and CONTRACT_ADDRESS are `.optional()` in the zod schema
of src/config/env.ts) and the raw `process.env.CONTRACT_ADDRESS` read at
contractVerifier.ts line 7. -/
structure ChainEnv where
  rpcUrl : Option String
  contractAddress : Option String
deriving DecidableEq, Repr

/-- The lazily built provider/contract pair, identified by what it was
constructed from. -/
structure ContractBinding where
  rpcUrl : String
  address : String
deriving DecidableEq, Repr

/-- Translation of `getContract` (contractVerifier.ts lines 12-33): return the
cached binding if present; otherwise throw when RPC_URL or CONTRACT_ADDRESS is
falsy, else construct the binding once and cache it. The result pairs the
binding with the module-level cache after the call. -/
def getContract (env : ChainEnv) (cached : Option ContractBinding) :
    Except String (ContractBinding × Option ContractBinding) :=
  match cached with
  | some c => .ok (c, some c)
  | none =>
      if !truthyO env.rpcUrl then .error "RPC_URL not configured"
      else if !truthyO env.contractAddress then .error "CONTRACT_ADDRESS not configured"
      else
        let c : ContractBinding := ⟨oget env.rpcUrl, oget env.contractAddress⟩
        .ok (c, some c)

/-- Whether `getContract` succeeds for this configuration and cache. -/
def getContractOk (env : ChainEnv) (cached : Option ContractBinding) : Bool :=
  cached.isSome || (truthyO env.rpcUrl && truthyO env.contractAddress)

/-- Outcome of the awaited `contractInstance.getProjectDetails(id)` call, the
external RPC collaborator: either a result whose `result[0].projectOwner`
field is the given possibly-absent string, or a thrown error (unreachable
endpoint, revert, malformed tuple — anything the `await` can raise). -/
inductive ChainCall where
  | ok (projectOwner : Option String)
  | threw (msg : String)
deriving DecidableEq, Repr

/-- The body of the `try` block of `verifyProjectOwner` (contractVerifier.ts
lines 39-88), with each JavaScript `throw` surfaced as an `Except.error`:
falsy inputs return false; `BigInt(projectId)` failure returns false through
its own inner catch; `getContract` and the chain call throw outward; an
absent, falsy or `ethers.isAddress`-rejected owner returns false; otherwise
the verdict is lower-cased string equality. `isAddr` is the external
`ethers.isAddress`. -/
def verifyProjectOwnerE (isAddr : String → Bool) (env : ChainEnv)
    (cached : Option ContractBinding) (call : ChainCall)
    (projectId walletAddress : String) : Except String Bool :=
  if !truthyS projectId || !truthyS walletAddress then .ok false
  else
    let normalizedWallet := jsToLowerCase walletAddress
    match jsBigIntOfString projectId with
    | none => .ok false
    | some _ =>
        match getContract env cached with
        | .error e => .error e
        | .ok _ =>
            match call with
            | .threw m => .error m
            | .ok projectOwner =>
                if !truthyO projectOwner then .ok false
                else if !isAddr (oget projectOwner) then .ok false
                else .ok (normalizedWallet == jsToLowerCase (oget projectOwner))

/-- Translation of `verifyProjectOwner`: the try body with the enclosing
catch, which maps every thrown error to `false`. -/
def verifyProjectOwner (isAddr : String → Bool) (env : ChainEnv)
    (cached : Option ContractBinding) (call : ChainCall)
    (projectId walletAddress : String) : Bool :=
  match verifyProjectOwnerE isAddr env cached call projectId walletAddress with
  | .ok b => b
  | .error _ => false

/-- The body of the `try` block of `getProjectOwner` (contractVerifier.ts
lines 98-116): falsy id returns null; here `BigInt(projectId)` has no inner
catch, so a malformed id throws outward, as do `getContract` and the chain
call; an absent, falsy or address-invalid owner returns null; otherwise the
lower-cased owner. -/
def getProjectOwnerE (isAddr : String → Bool) (env : ChainEnv)
    (cached : Option ContractBinding) (call : ChainCall)
    (projectId : String) : Except String (Option String) :=
  if !truthyS projectId then .ok none
  else
    match jsBigIntOfString projectId with
    | none => .error "SyntaxError: Cannot convert projectId to a BigInt"
    | some _ =>
        match getContract env cached with
        | .error e => .error e
        | .ok _ =>
            match call with
            | .threw m => .error m
            | .ok projectOwner =>
                if !truthyO projectOwner || !isAddr (oget projectOwner) then .ok none
                else .ok (some (jsToLowerCase (oget projectOwner)))

/-- Translation of `getProjectOwner`: the try body with the enclosing catch,
which maps every thrown error to `null`. -/
def getProjectOwner (isAddr : String → Bool) (env : ChainEnv)
    (cached : Option ContractBinding) (call : ChainCall)
    (projectId : String) : Option String :=
  match getProjectOwnerE isAddr env cached call projectId with
  | .ok r => r
  | .error _ => none

/-- The zero-address sentinel compared against in `projectExists`
(contractVerifier.ts line 127). -/
def zeroAddress : String := "0x0000000000000000000000000000000000000000"

/-- Translation of `projectExists` (contractVerifier.ts lines 123-138): the
owner from `getProjectOwner` must be non-null and different from the zero
address. Its own catch is unreachable since `getProjectOwner` never throws. -/
def projectExists (isAddr : String → Bool) (env : ChainEnv)
    (cached : Option ContractBinding) (call : ChainCall)
    (projectId : String) : Bool :=
  match getProjectOwner isAddr env cached call projectId with
  | none => false
  | some owner => !(owner == zeroAddress)

/-- Reference instance of the external `ethers.isAddress` collaborator,
valid on the inputs the concrete theorems use: ethers accepts any `0x`
followed by 40 lower-case hex digits (checksum validation only applies to
mixed-case input, which no concrete input below contains). -/
def isLowerHexDigit (c : Char) : Bool := c.isDigit || ('a' ≤ c && c ≤ 'f')

def ethersIsAddressLower (s : String) : Bool :=
  match s.data with
  | '0' :: 'x' :: rest => rest.length == 40 && rest.all isLowerHexDigit
  | _ => false

/-- A well-formed chain configuration used by concrete witnesses. -/
def demoEnv : ChainEnv :=
  ⟨some "https://rpc.example", some "0xffffffffffffffffffffffffffffffffffffffff"⟩

/-- A chain configuration with both RPC_URL and CONTRACT_ADDRESS missing. -/
def misconfiguredEnv : ChainEnv := ⟨none, none⟩

/-- Startup handling of chain misconfiguration (src/config/env.ts lines
108-116): a set RPC_URL without CONTRACT_ADDRESS only logs a warning; a set
CONTRACT_ADDRESS without RPC_URL logs an error and calls `process.exit(1)`
only in production. This function is true exactly when startup exits. -/
def envChainStartupExit (isProduction : Bool) (env : ChainEnv) : Bool :=
  isProduction && truthyO env.contractAddress && !truthyO env.rpcUrl

/-! ## Project metadata store (src/models/ProjectMetadata.ts) -/

/-- A document of the `project_metadata` collection. `mongoId` stands for the
driver-assigned `_id`. -/
structure ProjectMetadataRec where
  mongoId : Option Nat
  projectId : String
  twitter : Option String
  website : Option String
  overview : Option String
  ownerAddress : String
  lastUpdated : Nat
  createdAt : Nat
deriving DecidableEq, Repr

/-- The `data` argument of upsert: the three optional metadata fields. -/
structure MetaFields where
  twitter : Option String
  website : Option String
  overview : Option String
deriving DecidableEq, Repr

/-- Translation of `ProjectMetadataModel.upsert` (ProjectMetadata.ts lines
32-65): `findOneAndUpdate` by projectId, `$set`-ting the spread data fields,
the lower-cased owner address and `lastUpdated = now`, with `createdAt` under
`$setOnInsert` so it is only written when the filter matched no document.
`existing` is the document currently matching the projectId filter, if any
(its projectId field therefore equals the filter key). -/
def ProjectMetadataModel.upsert (now : Nat) (projectId ownerAddress : String)
    (data : MetaFields) (existing : Option ProjectMetadataRec) : ProjectMetadataRec :=
  match existing with
  | some old =>
      { old with
        twitter := data.twitter
        website := data.website
        overview := data.overview
        ownerAddress := jsToLowerCase ownerAddress
        lastUpdated := now }
  | none =>
      { mongoId := none
        projectId := projectId
        twitter := data.twitter
        website := data.website
        overview := data.overview
        ownerAddress := jsToLowerCase ownerAddress
        lastUpdated := now
        createdAt := now }

/-! ## The privileged metadata mutation route (src/routes/projects.ts) -/

/-- Validation limits from projects.ts lines 14-16. -/
def MAX_OVERVIEW_LENGTH : Nat := 500

def MAX_URL_LENGTH : Nat := 2048

def MAX_PROJECT_ID_LENGTH : Nat := 100

/-- Ceiling of the wallet-mutation (metadata) rate-limit policy, projects.ts
line 26: `Math.floor(config.rateLimit.maxRequests / 10)`, 10x stricter than
the general API limit built from the same RATE_LIMIT_MAX_REQUESTS. -/
def metadataLimiterMax (maxRequests : Nat) : Nat := maxRequests / 10

/-- The parsed JSON body of the metadata POST, as the handlers destructure
it: three metadata fields plus the client-asserted ownerAddress field that
only the legacy handler reads. -/
structure MetaBody where
  twitter : Option String
  website : Option String
  overview : Option String
  ownerAddress : Option String
deriving DecidableEq, Repr

/-- HTTP statuses the metadata route can answer with. -/
inductive MetaStatus where
  | ok200
  | badRequest400
  | unauthorized401
  | forbidden403
  | notFound404
  | tooManyRequests429
deriving DecidableEq, Repr

/-- Arguments the handler passes to `ProjectMetadataModel.upsert` when it
reaches the write. -/
structure UpsertArgs where
  projectId : String
  ownerAddress : String
  fields : MetaFields
deriving DecidableEq, Repr

/-- Status answered plus the upsert performed, if any. -/
structure MetaOutcome where
  status : MetaStatus
  stored : Option UpsertArgs
deriving DecidableEq, Repr

/-- Twitter/website field validation of the mounted handler (projects.ts
lines 316-358): a truthy field longer than MAX_URL_LENGTH or rejected by its
validator is a 400; an absent field stays absent. -/
def validateUrlField (validate : String → Option String) (raw : Option String) :
    Except Unit (Option String) :=
  if truthyO raw then
    if (oget raw).length > MAX_URL_LENGTH then .error ()
    else
      match validate (oget raw) with
      | none => .error ()
      | some v => .ok (some v)
  else .ok none

/-- Overview validation of the mounted handler (projects.ts lines 360-383):
a truthy overview longer than MAX_OVERVIEW_LENGTH is a 400; otherwise it is
sanitized and kept only when the sanitized text is non-empty. -/
def validateOverviewField (sanitizeInput : String → String) (raw : Option String) :
    Except Unit (Option String) :=
  if truthyO raw then
    if (oget raw).length > MAX_OVERVIEW_LENGTH then .error ()
    else
      let cleaned := sanitizeInput (oget raw)
      .ok (if cleaned.length > 0 then some cleaned else none)
  else .ok none

/-- Translation of the mounted metadata POST handler (projects.ts lines
267-410). `sanitizeInput`, `validateTwitterUrl` and `validateWebsiteUrl`
stand for the out-of-scope sanitization collaborators (utils/sanitize.ts and
the URL parser); `user` is `req.user?.address` as left by authenticateJWT;
the two `ChainCall`s are the fresh reads performed by projectExists and
verifyProjectOwner. The same binding cache is passed to both chain reads:
for a fixed environment `getContract` succeeds or fails uniformly, so this
does not change any verdict. -/
def metadataHandler (sanitizeInput : String → String)
    (validateTwitterUrl validateWebsiteUrl : String → Option String)
    (isAddr : String → Bool) (env : ChainEnv) (cached : Option ContractBinding)
    (existsCall ownerCall : ChainCall)
    (user : Option String) (idParam : String) (body : MetaBody) : MetaOutcome :=
  if idParam.length > MAX_PROJECT_ID_LENGTH then ⟨.badRequest400, none⟩
  else if !truthyO user then ⟨.unauthorized401, none⟩
  else if !projectExists isAddr env cached existsCall (sanitizeInput idParam) then
    ⟨.notFound404, none⟩
  else if !verifyProjectOwner isAddr env cached ownerCall (sanitizeInput idParam)
      (oget user) then ⟨.forbidden403, none⟩
  else
    match validateUrlField validateTwitterUrl body.twitter with
    | .error _ => ⟨.badRequest400, none⟩
    | .ok sanitizedTwitter =>
        match validateUrlField validateWebsiteUrl body.website with
        | .error _ => ⟨.badRequest400, none⟩
        | .ok sanitizedWebsite =>
            match validateOverviewField sanitizeInput body.overview with
            | .error _ => ⟨.badRequest400, none⟩
            | .ok sanitizedOverview =>
                ⟨.ok200, some ⟨sanitizeInput idParam, oget user,
                  ⟨sanitizedTwitter, sanitizedWebsite, sanitizedOverview⟩⟩⟩

/-- Translation of the legacy metadata POST handler kept in the unnamed
duplicate of the projects router (src/unnamed/part_002, lines 186-261): no
on-chain check at all — instead the verdict compares the session wallet with
the client-supplied body field `ownerAddress` (403 unless they match after
lower-casing, 403 also when the field is absent, since
`ownerAddress?.toLowerCase()` is then undefined); URLs are gated by the
plain validateUrl and the body's raw twitter/website values are stored. -/
def metadataHandlerLegacy (sanitizeInput : String → String)
    (validateUrl : String → Option String)
    (user : Option String) (idParam : String) (body : MetaBody) : MetaOutcome :=
  if !truthyO user then ⟨.unauthorized401, none⟩
  else if some (jsToLowerCase (oget user)) != body.ownerAddress.map jsToLowerCase then
    ⟨.forbidden403, none⟩
  else if truthyO body.twitter && (validateUrl (oget body.twitter)).isNone then
    ⟨.badRequest400, none⟩
  else if truthyO body.website && (validateUrl (oget body.website)).isNone then
    ⟨.badRequest400, none⟩
  else
    ⟨.ok200, some ⟨sanitizeInput idParam, oget user,
      ⟨if truthyO body.twitter then body.twitter else none,
       if truthyO body.website then body.website else none,
       if truthyO body.overview then some (sanitizeInput (oget body.overview)) else none⟩⟩⟩

/-! ## Composition of the metadata route (projects.ts lines 267-272) -/

/-- The middleware the routes of projects.ts are composed from. -/
inductive MwTag where
  | authenticateJWT
  | verifyCsrfToken
  | metadataLimiter
  | walletLimiter
deriving DecidableEq, Repr

/-- The middleware column of `router.post('/:id/metadata', ...)` exactly as
written at projects.ts lines 267-272: authenticateJWT, then verifyCsrfToken,
then the handler — the `metadataLimiter` argument on line 271 is commented
out. Compare `router.post('/create', ...)` (lines 40-44), whose column is
authenticateJWT, verifyCsrfToken, walletLimiter. -/
def metadataRouteMiddleware : List MwTag := [.authenticateJWT, .verifyCsrfToken]

/-- Modelled from the spec: the session middleware authenticateJWT
(src/middleware/auth.ts is not among the repository's source files) verifies
the session token per spec sections 4.2 and 6 and either rejects with 401 or
exposes the verified wallet address on the request. -/
def authenticateJWT (session : Option String) : Except MetaStatus String :=
  match session with
  | none => .error .unauthorized401
  | some address => .ok address

/-- Modelled from the spec: the rate limiter's `consume` (section 4.4,
src/middleware/rateLimiter.ts is not among the repository's source files)
counts the request within the current fixed window and allows it iff the
incremented count stays within the policy ceiling. -/
def rateLimitAllows (countInWindow ceiling : Nat) : Bool := countInWindow ≤ ceiling

/-- The metadata POST route as the mounted code composes it: authenticateJWT,
verifyCsrfToken, handler. No rate-limit middleware takes part, so the
request's position in any rate window (`countInWindow`) cannot influence the
outcome. -/
def runMetadataRoute (sanitizeInput : String → String)
    (validateTwitterUrl validateWebsiteUrl : String → Option String)
    (isAddr : String → Bool) (env : ChainEnv) (cached : Option ContractBinding)
    (existsCall ownerCall : ChainCall)
    (session : Option String) (method : String) (csrfCookie csrfHeader : Option String)
    (idParam : String) (body : MetaBody) (countInWindow : Nat) : MetaStatus :=
  match authenticateJWT session with
  | .error s => s
  | .ok address =>
      match Csrf.verifyCsrfToken method csrfCookie csrfHeader with
      | .missing403 => .forbidden403
      | .mismatch403 => .forbidden403
      | .proceed =>
          (metadataHandler sanitizeInput validateTwitterUrl validateWebsiteUrl
            isAddr env cached existsCall ownerCall (some address) idParam body).status

/-- Modelled from the spec: the privileged mutation flow of section 4.6 —
verify session token, verify CSRF, rate-limit(wallet-mutation), then the
on-chain checks and the write — with a request over the ceiling answered
429. Used as the comparison point for the mounted composition above. -/
def specMutationFlow (sanitizeInput : String → String)
    (validateTwitterUrl validateWebsiteUrl : String → Option String)
    (isAddr : String → Bool) (env : ChainEnv) (cached : Option ContractBinding)
    (existsCall ownerCall : ChainCall)
    (session : Option String) (method : String) (csrfCookie csrfHeader : Option String)
    (idParam : String) (body : MetaBody) (countInWindow ceiling : Nat) : MetaStatus :=
  match authenticateJWT session with
  | .error s => s
  | .ok address =>
      match Csrf.verifyCsrfToken method csrfCookie csrfHeader with
      | .missing403 => .forbidden403
      | .mismatch403 => .forbidden403
      | .proceed =>
          if !rateLimitAllows countInWindow ceiling then .tooManyRequests429
          else
            (metadataHandler sanitizeInput validateTwitterUrl validateWebsiteUrl
              isAddr env cached existsCall ownerCall (some address) idParam body).status

/-- A valid lower-case wallet address used by concrete inputs. -/
def demoOwner : String := "0xaaaaaaaaaaaaaaaaaaaaaaaaaaaaaaaaaaaaaaaa"

/-! ## Verdict of the double-submit CSRF check (C6, C10) -/

/-- C6: verifyCsrfToken passes every GET/HEAD/OPTIONS request through; for any
other method it proceeds iff the csrf cookie and the x-csrf-token header are
both present (non-empty, the code's `!token` truthiness test, matching the
spec's "both non-empty") and exactly string-equal; it answers 403 missing when
either side is absent and 403 mismatch when both are present but unequal. -/
theorem c6_csrf_verdict_characterization (method : String) (cookieToken headerToken : Option String) :
    (Csrf.safeMethods.contains method = true →
      Csrf.verifyCsrfToken method cookieToken headerToken = .proceed) ∧
    (Csrf.safeMethods.contains method = false →
      ((Csrf.verifyCsrfToken method cookieToken headerToken = .proceed ↔
          truthyO cookieToken = true ∧ truthyO headerToken = true ∧
          oget cookieToken = oget headerToken) ∧
       (Csrf.verifyCsrfToken method cookieToken headerToken = .missing403 ↔
          ¬(truthyO cookieToken = true ∧ truthyO headerToken = true)) ∧
       (Csrf.verifyCsrfToken method cookieToken headerToken = .mismatch403 ↔
          truthyO cookieToken = true ∧ truthyO headerToken = true ∧
          oget cookieToken ≠ oget headerToken))) := by
  constructor
  · intro hm
    have hm' : method ∈ Csrf.safeMethods := by simpa using hm
    simp [Csrf.verifyCsrfToken, hm']
  · intro hm
    have hm' : method ∉ Csrf.safeMethods := by simpa using hm
    cases hc : truthyO cookieToken <;> cases hh : truthyO headerToken <;>
      by_cases he : oget cookieToken = oget headerToken <;>
        simp [Csrf.verifyCsrfToken, hm', hc, hh, he]

/-- C10: the two implementations of verifyCsrfToken — src/middleware/csrf.ts
and the unnamed duplicate src/unnamed/part_006 — give the same verdict on
every request: both proceed, both reject 403 missing, or both reject 403
mismatch. -/
theorem c10_csrf_implementations_agree (method : String) (cookieToken headerToken : Option String) :
    Csrf.verifyCsrfToken method cookieToken headerToken =
      CsrfPart006.verifyCsrfToken method cookieToken headerToken := rfl

/-! ## Facts about the lazy contract binding -/

theorem getContractOk_of_ok {env : ChainEnv} {cached : Option ContractBinding}
    {p : ContractBinding × Option ContractBinding}
    (h : getContract env cached = .ok p) : getContractOk env cached = true := by
  unfold getContract at h
  unfold getContractOk
  cases cached with
  | some c => simp
  | none =>
      cases hr : truthyO env.rpcUrl <;> cases ha : truthyO env.contractAddress <;>
        simp [hr, ha] at h ⊢

theorem getContract_eq_error_of_not_ok {env : ChainEnv} {cached : Option ContractBinding}
    (h : getContractOk env cached = false) : ∃ e, getContract env cached = .error e := by
  unfold getContractOk at h
  unfold getContract
  cases cached with
  | some c => simp at h
  | none =>
      cases hr : truthyO env.rpcUrl <;> cases ha : truthyO env.contractAddress <;>
        simp [hr, ha] at h ⊢

theorem getContract_eq_ok_of_ok {env : ChainEnv} {cached : Option ContractBinding}
    (h : getContractOk env cached = true) : ∃ p, getContract env cached = .ok p := by
  unfold getContractOk at h
  unfold getContract
  cases cached with
  | some c => exact ⟨(c, some c), rfl⟩
  | none =>
      cases hr : truthyO env.rpcUrl <;> cases ha : truthyO env.contractAddress <;>
        simp [hr, ha] at h ⊢

/-! ## Characterization of the ownership check -/

/-- verifyProjectOwner returns true exactly when: both inputs are non-empty,
the project id coerces to a BigInt, the contract binding is available, the
chain call returned a non-empty owner accepted by the address validator, and
the lower-cased claimant equals the lower-cased owner. -/
theorem verifyOwner_eq_true_iff (isAddr : String → Bool) (env : ChainEnv)
    (cached : Option ContractBinding) (call : ChainCall)
    (projectId walletAddress : String) :
    verifyProjectOwner isAddr env cached call projectId walletAddress = true ↔
      truthyS projectId = true ∧ truthyS walletAddress = true ∧
      (jsBigIntOfString projectId).isSome = true ∧
      getContractOk env cached = true ∧
      ∃ o, call = ChainCall.ok (some o) ∧ truthyS o = true ∧ isAddr o = true ∧
        jsToLowerCase walletAddress = jsToLowerCase o := by
  unfold verifyProjectOwner verifyProjectOwnerE
  cases hid : truthyS projectId
  · simp [hid]
  cases hw : truthyS walletAddress
  · simp [hid, hw]
  cases hp : jsBigIntOfString projectId
  · simp [hid, hw, hp]
  cases hg : getContract env cached with
  | error e =>
      have hok : getContractOk env cached = false := by
        cases hok : getContractOk env cached with
        | false => rfl
        | true =>
            rcases getContract_eq_ok_of_ok hok with ⟨p, hp'⟩
            rw [hg] at hp'
            exact absurd hp' (by simp)
      simp [hid, hw, hp, hg, hok]
  | ok p =>
      have hok : getContractOk env cached = true := getContractOk_of_ok hg
      cases call with
      | threw m => simp [hid, hw, hp, hg]
      | ok projectOwner =>
          cases projectOwner with
          | none => simp [hid, hw, hp, hg, truthyO]
          | some o =>
              cases ho : truthyS o
              · simp [hid, hw, hp, hg, truthyO, ho]
              cases ha : isAddr o
              · simp [hid, hw, hp, hg, truthyO, oget, ho, ha]
              · simp [hid, hw, hp, hg, truthyO, oget, ho, ha, hok, beq_iff_eq]

/-- C7: for every pair of inputs and every contract-call outcome,
verifyProjectOwner returns true exactly when verification fully succeeds and
the lower-cased claimed wallet equals the lower-cased on-chain owner; every
failure — falsy inputs, bad id, missing binding, thrown call, absent or
invalid owner — yields false, and every error thrown inside the try body is
caught and becomes false rather than propagating, so the check never defaults
to true. -/
theorem c7_owner_check_iff_and_fail_closed (isAddr : String → Bool) (env : ChainEnv)
    (cached : Option ContractBinding) (call : ChainCall)
    (projectId walletAddress : String) :
    (verifyProjectOwner isAddr env cached call projectId walletAddress = true ↔
      truthyS projectId = true ∧ truthyS walletAddress = true ∧
      (jsBigIntOfString projectId).isSome = true ∧
      getContractOk env cached = true ∧
      ∃ o, call = ChainCall.ok (some o) ∧ truthyS o = true ∧ isAddr o = true ∧
        jsToLowerCase walletAddress = jsToLowerCase o) ∧
    (∀ e, verifyProjectOwnerE isAddr env cached call projectId walletAddress = .error e →
      verifyProjectOwner isAddr env cached call projectId walletAddress = false) := by
  refine ⟨verifyOwner_eq_true_iff isAddr env cached call projectId walletAddress, ?_⟩
  intro e he
  unfold verifyProjectOwner
  rw [he]

/-- C2 counterexample: when the on-chain owner of project "1" is the zero
address and the claimed wallet is itself the zero address, the code's
ownership check returns true, not false as the claim states. -/
theorem c2_counterexample :
    verifyProjectOwner ethersIsAddressLower demoEnv none
      (ChainCall.ok (some zeroAddress)) "1" zeroAddress = true := by decide

/-- C2 amended: the ownership check returns false whenever the chain owner is
null/absent or empty (for every claimed address), and whenever the claimed
address is empty/falsy; when the chain owner is the zero address it returns
false for every claimed address except one that itself lower-cases to the
zero address — in that one case (well-formed id, configured binding,
validator accepting the zero address) it returns true. -/
theorem c2_owner_check_zero_and_absent (isAddr : String → Bool) (env : ChainEnv)
    (cached : Option ContractBinding) (call : ChainCall)
    (projectId walletAddress : String) :
    ((call = ChainCall.ok none ∨ call = ChainCall.ok (some "")) →
      verifyProjectOwner isAddr env cached call projectId walletAddress = false) ∧
    (truthyS walletAddress = false →
      verifyProjectOwner isAddr env cached call projectId walletAddress = false) ∧
    (call = ChainCall.ok (some zeroAddress) →
      (verifyProjectOwner isAddr env cached call projectId walletAddress = true ↔
        truthyS projectId = true ∧ (jsBigIntOfString projectId).isSome = true ∧
        getContractOk env cached = true ∧ isAddr zeroAddress = true ∧
        jsToLowerCase walletAddress = zeroAddress)) := by
  refine ⟨?_, ?_, ?_⟩
  · intro h
    rw [Bool.eq_false_iff]
    intro ht
    rcases (verifyOwner_eq_true_iff isAddr env cached call projectId walletAddress).mp ht
      with ⟨-, -, -, -, o, hcall, ho, -, -⟩
    rcases h with h | h <;> rw [h] at hcall
    · exact absurd hcall (by simp)
    · have : o = "" := by simpa using hcall.symm
      rw [this] at ho
      exact absurd ho (by decide)
  · intro h
    rw [Bool.eq_false_iff]
    intro ht
    rcases (verifyOwner_eq_true_iff isAddr env cached call projectId walletAddress).mp ht
      with ⟨-, hw, -, -, -⟩
    rw [h] at hw
    exact absurd hw (by decide)
  · intro h
    rw [verifyOwner_eq_true_iff]
    constructor
    · rintro ⟨hid, -, hp, hok, o, hcall, -, ha, hl⟩
      rw [h] at hcall
      have ho : o = zeroAddress := by simpa using hcall.symm
      rw [ho] at ha hl
      have hz : jsToLowerCase zeroAddress = zeroAddress := by decide
      exact ⟨hid, hp, hok, ha, by rw [hl, hz]⟩
    · rintro ⟨hid, hp, hok, ha, hl⟩
      have hw : truthyS walletAddress = true := by
        cases hwa : walletAddress == "" with
        | false => simp [truthyS, bne, hwa]
        | true =>
            have hwa' : walletAddress = "" := by simpa using hwa
            rw [hwa'] at hl
            exact absurd hl (by decide)
      have hz : jsToLowerCase zeroAddress = zeroAddress := by decide
      exact ⟨hid, hw, hp, hok, zeroAddress, h, by decide, ha, by rw [hl, hz]⟩

/-! ## Soft-failure behaviour of getProjectOwner and projectExists -/

/-- C4 counterexample: when the contract reports the zero address as owner of
project "1", getProjectOwner returns that zero address (lower-cased), not
null as the claim states; the zero-address sentinel is only handled later, in
projectExists. -/
theorem c4_counterexample :
    getProjectOwner ethersIsAddressLower demoEnv none
      (ChainCall.ok (some zeroAddress)) "1" = some zeroAddress := by decide

/-- C4 amended: getProjectOwner returns null when the project id is falsy or
not coercible to a BigInt, when the contract binding cannot be constructed,
when the RPC call throws, and when the returned owner is absent, empty or
rejected by the address validator; but a well-formed zero owner address is
returned lower-cased rather than nulled — projectExists is where the zero
address is screened out, reporting the project as non-existent. -/
theorem c4_get_project_owner_soft_failures (isAddr : String → Bool) (env : ChainEnv)
    (cached : Option ContractBinding) (call : ChainCall) (projectId : String) :
    (truthyS projectId = false →
      getProjectOwner isAddr env cached call projectId = none) ∧
    (jsBigIntOfString projectId = none →
      getProjectOwner isAddr env cached call projectId = none) ∧
    (getContractOk env cached = false →
      getProjectOwner isAddr env cached call projectId = none) ∧
    (∀ m, call = ChainCall.threw m →
      getProjectOwner isAddr env cached call projectId = none) ∧
    (∀ o, call = ChainCall.ok o → (truthyO o = false ∨ isAddr (oget o) = false) →
      getProjectOwner isAddr env cached call projectId = none) ∧
    (∀ o, call = ChainCall.ok (some o) → truthyS o = true → isAddr o = true →
      truthyS projectId = true → getContractOk env cached = true →
      (jsBigIntOfString projectId).isSome = true →
      getProjectOwner isAddr env cached call projectId = some (jsToLowerCase o)) ∧
    (call = ChainCall.ok (some zeroAddress) → isAddr zeroAddress = true →
      projectExists isAddr env cached call projectId = false) := by
  refine ⟨?_, ?_, ?_, ?_, ?_, ?_, ?_⟩
  · intro h
    simp [getProjectOwner, getProjectOwnerE, h]
  · intro h
    cases hid : truthyS projectId <;> simp [getProjectOwner, getProjectOwnerE, hid, h]
  · intro h
    rcases getContract_eq_error_of_not_ok h with ⟨e, hg⟩
    cases hid : truthyS projectId
    · simp [getProjectOwner, getProjectOwnerE, hid]
    cases hp : jsBigIntOfString projectId <;>
      simp [getProjectOwner, getProjectOwnerE, hid, hp, hg]
  · intro m h
    subst h
    cases hid : truthyS projectId
    · simp [getProjectOwner, getProjectOwnerE, hid]
    cases hp : jsBigIntOfString projectId
    · simp [getProjectOwner, getProjectOwnerE, hid, hp]
    cases hg : getContract env cached <;>
      simp [getProjectOwner, getProjectOwnerE, hid, hp, hg]
  · intro o h ho
    subst h
    cases hid : truthyS projectId
    · simp [getProjectOwner, getProjectOwnerE, hid]
    cases hp : jsBigIntOfString projectId
    · simp [getProjectOwner, getProjectOwnerE, hid, hp]
    cases hg : getContract env cached with
    | error e => simp [getProjectOwner, getProjectOwnerE, hid, hp, hg]
    | ok p =>
        rcases ho with ho | ho <;>
          simp [getProjectOwner, getProjectOwnerE, hid, hp, hg, ho]
  · intro o h ho ha hid hok hp
    subst h
    rcases getContract_eq_ok_of_ok hok with ⟨p, hg⟩
    rcases hps : jsBigIntOfString projectId with _ | v
    · rw [hps] at hp
      exact absurd hp (by decide)
    simp [getProjectOwner, getProjectOwnerE, hid, hps, hg, truthyO, oget, ho, ha]
  · intro h ha
    subst h
    cases hid : truthyS projectId
    · simp [projectExists, getProjectOwner, getProjectOwnerE, hid]
    cases hp : jsBigIntOfString projectId
    · simp [projectExists, getProjectOwner, getProjectOwnerE, hid, hp]
    cases hg : getContract env cached with
    | error e => simp [projectExists, getProjectOwner, getProjectOwnerE, hid, hp, hg]
    | ok p =>
        have hid' : ¬(projectId = "") := by simpa [truthyS] using hid
        have hz : jsToLowerCase zeroAddress = zeroAddress := by decide
        have hzne : ¬(zeroAddress = "") := by decide
        simp [projectExists, getProjectOwner, getProjectOwnerE, hid', hp, hg,
          truthyO, oget, truthyS, ha, hz, hzne]

/-! ## Lifecycle of the contract binding (C5) -/

/-- C5 counterexample: with both RPC_URL and CONTRACT_ADDRESS missing, startup
does not exit (in development or production — the zod schema marks both
fields optional and env.ts only warns for this combination), while the lazy
constructor throws on first use and both callers swallow the error into a
per-request soft failure (null / false). -/
theorem c5_counterexample :
    envChainStartupExit true misconfiguredEnv = false ∧
    envChainStartupExit false misconfiguredEnv = false ∧
    getContract misconfiguredEnv none = .error "RPC_URL not configured" ∧
    getProjectOwner ethersIsAddressLower misconfiguredEnv none
      (ChainCall.ok (some "0xaaaaaaaaaaaaaaaaaaaaaaaaaaaaaaaaaaaaaaaa")) "1" = none ∧
    verifyProjectOwner ethersIsAddressLower misconfiguredEnv none
      (ChainCall.ok (some "0xaaaaaaaaaaaaaaaaaaaaaaaaaaaaaaaaaaaaaaaa")) "1"
      "0xaaaaaaaaaaaaaaaaaaaaaaaaaaaaaaaaaaaaaaaa" = false :=
  ⟨by decide, by decide, rfl, by decide, by decide⟩

/-- C5 amended: getContract lazily constructs the provider/contract binding at
most once per process lifetime — a cached binding is returned unchanged, and
after any successful call the binding is cached so every later call returns
the very same binding; but a missing RPC endpoint or contract address is not
a fatal startup error: the constructor throws per use and the verifier
callers convert that into a per-request null / false. -/
theorem c5_lazy_binding_once_and_soft_misconfig (env : ChainEnv)
    (cached : Option ContractBinding) (c : ContractBinding)
    (cached' : Option ContractBinding) :
    (getContract env (some c) = .ok (c, some c)) ∧
    (getContract env cached = .ok (c, cached') →
      cached' = some c ∧ getContract env cached' = .ok (c, cached')) ∧
    (getContractOk env none = false →
      ∀ (isAddr : String → Bool) (call : ChainCall) (projectId walletAddress : String),
        getProjectOwner isAddr env none call projectId = none ∧
        verifyProjectOwner isAddr env none call projectId walletAddress = false) := by
  refine ⟨rfl, ?_, ?_⟩
  · intro h
    cases cached with
    | some c0 =>
        have h' : (Except.ok (c0, some c0) :
            Except String (ContractBinding × Option ContractBinding)) = .ok (c, cached') := h
        injection h' with hp'
        have h1 : c0 = c := congrArg Prod.fst hp'
        have h2 : some c0 = cached' := congrArg Prod.snd hp'
        subst h1
        rw [← h2]
        exact ⟨rfl, rfl⟩
    | none =>
        unfold getContract at h
        cases hr : truthyO env.rpcUrl <;> rw [hr] at h
        · simp at h
        cases ha : truthyO env.contractAddress <;> rw [ha] at h
        · simp at h
        simp only [Bool.not_true] at h
        rw [if_neg (by simp), if_neg (by simp)] at h
        injection h with hp'
        have h1 : (⟨oget env.rpcUrl, oget env.contractAddress⟩ : ContractBinding) = c :=
          congrArg Prod.fst hp'
        have h2 : (some ⟨oget env.rpcUrl, oget env.contractAddress⟩ :
            Option ContractBinding) = cached' := congrArg Prod.snd hp'
        subst h1
        rw [← h2]
        exact ⟨rfl, rfl⟩
  · intro h isAddr call projectId walletAddress
    rcases getContract_eq_error_of_not_ok h with ⟨e, hg⟩
    constructor
    · cases hid : truthyS projectId
      · simp [getProjectOwner, getProjectOwnerE, hid]
      cases hp : jsBigIntOfString projectId <;>
        simp [getProjectOwner, getProjectOwnerE, hid, hp, hg]
    · cases hid : truthyS projectId
      · simp [verifyProjectOwner, verifyProjectOwnerE, hid]
      cases hw : truthyS walletAddress
      · simp [verifyProjectOwner, verifyProjectOwnerE, hid, hw]
      cases hp : jsBigIntOfString projectId <;>
        simp [verifyProjectOwner, verifyProjectOwnerE, hid, hw, hp, hg]

/-! ## Frame of the metadata upsert (C9) -/

/-- C9: upserting onto an already-existing record leaves its createdAt,
projectId and _id unchanged and writes exactly twitter, website, overview,
lastUpdated and ownerAddress, the stored ownerAddress always being the
lower-cased form of the supplied address. -/
theorem c9_upsert_frame (now : Nat) (projectId ownerAddress : String)
    (data : MetaFields) (old : ProjectMetadataRec) :
    (ProjectMetadataModel.upsert now projectId ownerAddress data (some old)).createdAt
        = old.createdAt ∧
    (ProjectMetadataModel.upsert now projectId ownerAddress data (some old)).projectId
        = old.projectId ∧
    (ProjectMetadataModel.upsert now projectId ownerAddress data (some old)).mongoId
        = old.mongoId ∧
    (ProjectMetadataModel.upsert now projectId ownerAddress data (some old)).twitter
        = data.twitter ∧
    (ProjectMetadataModel.upsert now projectId ownerAddress data (some old)).website
        = data.website ∧
    (ProjectMetadataModel.upsert now projectId ownerAddress data (some old)).overview
        = data.overview ∧
    (ProjectMetadataModel.upsert now projectId ownerAddress data (some old)).lastUpdated
        = now ∧
    (ProjectMetadataModel.upsert now projectId ownerAddress data (some old)).ownerAddress
        = jsToLowerCase ownerAddress :=
  ⟨rfl, rfl, rfl, rfl, rfl, rfl, rfl, rfl⟩

/-! ## Absence of the wallet-mutation rate limit on the mounted route (C1) -/

/-- C1: evidence for the code bug — the mounted metadata route carries no
rate-limit middleware (projects.ts line 271 comments metadataLimiter out),
its outcome is independent of the request count in any window, and the
request exceeding the wallet-mutation ceiling (the 11th in a window under
the default RATE_LIMIT_MAX_REQUESTS = 100, ceiling 10) that the spec's flow
answers with 429 is instead processed through the on-chain checks to 200. -/
theorem c1_metadata_route_never_rate_limited :
    metadataRouteMiddleware = [MwTag.authenticateJWT, MwTag.verifyCsrfToken] ∧
    MwTag.metadataLimiter ∉ metadataRouteMiddleware ∧
    (∀ (sanitizeInput : String → String)
        (validateTwitterUrl validateWebsiteUrl : String → Option String)
        (isAddr : String → Bool) (env : ChainEnv) (cached : Option ContractBinding)
        (existsCall ownerCall : ChainCall) (session : Option String) (method : String)
        (csrfCookie csrfHeader : Option String) (idParam : String) (body : MetaBody)
        (count count' : Nat),
      runMetadataRoute sanitizeInput validateTwitterUrl validateWebsiteUrl isAddr env
          cached existsCall ownerCall session method csrfCookie csrfHeader idParam body count
        = runMetadataRoute sanitizeInput validateTwitterUrl validateWebsiteUrl isAddr env
          cached existsCall ownerCall session method csrfCookie csrfHeader idParam body count') ∧
    runMetadataRoute id Option.some Option.some ethersIsAddressLower demoEnv none
      (ChainCall.ok (some demoOwner)) (ChainCall.ok (some demoOwner))
      (some demoOwner) "POST" (some "tok") (some "tok") "1" ⟨none, none, none, none⟩
      (metadataLimiterMax 100 + 1) = .ok200 ∧
    specMutationFlow id Option.some Option.some ethersIsAddressLower demoEnv none
      (ChainCall.ok (some demoOwner)) (ChainCall.ok (some demoOwner))
      (some demoOwner) "POST" (some "tok") (some "tok") "1" ⟨none, none, none, none⟩
      (metadataLimiterMax 100 + 1) (metadataLimiterMax 100) = .tooManyRequests429 :=
  ⟨rfl, by decide, fun _ _ _ _ _ _ _ _ _ _ _ _ _ _ _ _ => rfl, by decide, by decide⟩

/-! ## Independence of the verdict from the client-asserted owner (C3) -/

/-- C3 counterexample: in the legacy metadata handler of the unnamed
projects-router duplicate, two requests identical except for the
client-supplied body field ownerAddress receive different verdicts — 200
when the field echoes the session wallet, 403 when it does not — so the
authorization verdict is not derived only from the verified session address
and the on-chain owner. -/
theorem c3_counterexample :
    (metadataHandlerLegacy id Option.some (some "0xabc") "1"
      ⟨none, none, none, some "0xabc"⟩).status = .ok200 ∧
    (metadataHandlerLegacy id Option.some (some "0xabc") "1"
      ⟨none, none, none, some "0xdef"⟩).status = .forbidden403 := by decide

/-- C3 amended: the mounted metadata handler (src/routes/projects.ts) never
reads the body's ownerAddress — two requests identical except for that field
receive the same verdict and the same stored record, whose owner argument is
always the verified session address; the legacy handler of the unnamed
duplicate does condition its verdict on the client-supplied ownerAddress,
though even it passes only the verified session address to the store. -/
theorem c3_verdict_independent_of_client_owner_field
    (sanitizeInput : String → String)
    (validateTwitterUrl validateWebsiteUrl : String → Option String)
    (isAddr : String → Bool) (env : ChainEnv) (cached : Option ContractBinding)
    (existsCall ownerCall : ChainCall) (user : Option String) (idParam : String)
    (body : MetaBody) (oa oa' : Option String) :
    (metadataHandler sanitizeInput validateTwitterUrl validateWebsiteUrl isAddr env
        cached existsCall ownerCall user idParam { body with ownerAddress := oa }
      = metadataHandler sanitizeInput validateTwitterUrl validateWebsiteUrl isAddr env
        cached existsCall ownerCall user idParam { body with ownerAddress := oa' }) ∧
    (∀ args, (metadataHandler sanitizeInput validateTwitterUrl validateWebsiteUrl isAddr
        env cached existsCall ownerCall user idParam body).stored = some args →
      args.ownerAddress = oget user) ∧
    (∀ sanitize₂ validateUrl₂ args,
      (metadataHandlerLegacy sanitize₂ validateUrl₂ user idParam body).stored = some args →
      args.ownerAddress = oget user) := by
  refine ⟨by cases body; rfl, ?_, ?_⟩
  · intro args h
    unfold metadataHandler at h
    repeat' split at h
    all_goals simp_all
    all_goals rw [← h]
  · intro sanitize₂ validateUrl₂ args h
    unfold metadataHandlerLegacy at h
    repeat' split at h
    all_goals simp_all
    all_goals rw [← h]

/-! ## Strictness of the wallet-mutation ceiling (C8) -/

/-- C8: for every positive configured RATE_LIMIT_MAX_REQUESTS (the general
API ceiling n — the zod schema of env.ts makes it a positive integer,
default 100), the metadata limiter's ceiling is floor(n / 10) and is
strictly smaller than n. -/
theorem c8_metadata_ceiling_stricter (n : Nat) (h : 0 < n) :
    metadataLimiterMax n = n / 10 ∧ metadataLimiterMax n < n :=
  ⟨rfl, Nat.div_lt_self h (by decide)⟩

/-- C8 witness: at the default configuration n = 100 the metadata ceiling is
10, strictly below 100. -/
theorem c8_witness :
    0 < 100 ∧ (metadataLimiterMax 100 = 100 / 10 ∧ metadataLimiterMax 100 < 100) :=
  ⟨by decide, c8_metadata_ceiling_stricter 100 (by decide)⟩

end ExhibitionBackend

